import Mathlib

/-!
Verification of the deepsparse text-generation pipeline core
(`src/deepsparse/transformers/pipelines/text_generation.py` and
`src/deepsparse/transformers/utils/helpers.py`) against its
natural-language specification.

Tensors are shallowly embedded as (nested) lists: a 2-D array of shape
`[batch, n]` is a `List` of `batch` rows, each a `List` of length `n`.
Engines are abstracted as pure oracles (functions from the token context to
a `(token, logits)` pair), which is all the control-flow claims depend on.
-/

namespace DeepSparse

/-! ## CausalMaskBuilder (`helpers.create_causal_mask`, lines 119-199) -/

/-- `causal_mask[:, :, :, :n] = 0`: zero out the first `n` entries of a row. -/
def zeroOutLeft : Nat → List Int → List Int
  | _, [] => []
  | 0, xs => xs
  | n + 1, _ :: xs => 0 :: zeroOutLeft n xs

/-- Row `i` of `numpy.tril(numpy.ones((.., L, L)), 0)`:
ones at columns `0..i`, zeros after. -/
def trilRow (L i : Nat) : List Int :=
  (List.range L).map (fun j => if j ≤ i then 1 else 0)

/-- Row `i` of the concatenation (axis -1) of the all-ones past-cache block
of width `S - L` with the lower-triangular `[L, L]` block. -/
def causalRow (L S i : Nat) : List Int :=
  List.replicate (S - L) 1 ++ trilRow L i

/-- `numpy.count_nonzero(attention_mask == 0)`: the number of zero entries
across the whole attention-mask array. -/
def countZeros (attention_mask : List (List Int)) : Nat :=
  (attention_mask.map (fun row => (row.filter (fun x => x == 0)).length)).sum

/-- `helpers.create_causal_mask` (multi-token else-branch and the
`input_ids_length == 1` reshape branch).  `input_ids` has shape
`[batch, L]`, `attention_mask` has shape `[batch, S]`; the result has shape
`[batch, 1, L, S]` (`[batch, 1, 1, S]` when `L = 1`). -/
def create_causal_mask (input_ids : List (List Int))
    (attention_mask : List (List Int)) : List (List (List (List Int))) :=
  let input_ids_length := (input_ids.headD []).length
  if input_ids_length == 1 then
    -- numpy.reshape(attention_mask, (batch_size, 1, 1, sequence_length))
    attention_mask.map (fun row => [[row]])
  else
    let num_zeros := countZeros attention_mask
    let sequence_length := (attention_mask.headD []).length
    input_ids.map (fun _ =>
      [(List.range input_ids_length).map (fun i =>
        zeroOutLeft num_zeros (causalRow input_ids_length sequence_length i))])

/-- Spec-side definition (for the L=1 refinement claim): `attention_mask`
reshaped to shape `[batch, 1, 1, S]`, with no triangular computation. -/
def attention_mask_reshaped (attention_mask : List (List Int)) :
    List (List (List (List Int))) :=
  attention_mask.map (fun row => [[row]])

/-! ### Basic lemmas about the mask rows -/

theorem zeroOutLeft_length (n : Nat) (xs : List Int) :
    (zeroOutLeft n xs).length = xs.length := by
  induction xs generalizing n with
  | nil => cases n <;> rfl
  | cons x xs ih =>
    cases n with
    | zero => rfl
    | succ n => simpa [zeroOutLeft] using ih n

theorem zeroOutLeft_getD_lt (n : Nat) (xs : List Int) (j : Nat) (d : Int)
    (hj : j < n) (hx : j < xs.length) :
    (zeroOutLeft n xs).getD j d = 0 := by
  induction xs generalizing n j with
  | nil => simp at hx
  | cons x xs ih =>
    cases n with
    | zero => omega
    | succ n =>
      cases j with
      | zero => rfl
      | succ j =>
        simp only [zeroOutLeft, List.getD_cons_succ]
        exact ih n j (by omega) (by simpa using hx)

theorem zeroOutLeft_getD_ge (n : Nat) (xs : List Int) (j : Nat) (d : Int)
    (hj : n ≤ j) :
    (zeroOutLeft n xs).getD j d = xs.getD j d := by
  induction xs generalizing n j with
  | nil => cases n <;> rfl
  | cons x xs ih =>
    cases n with
    | zero => rfl
    | succ n =>
      cases j with
      | zero => omega
      | succ j =>
        simp only [zeroOutLeft, List.getD_cons_succ]
        exact ih n j (by omega)

theorem causalRow_length (L S i : Nat) (h : L ≤ S) :
    (causalRow L S i).length = S := by
  simp [causalRow, trilRow]
  omega

theorem countZeros_leading (z s1 : Nat) :
    countZeros [List.replicate z 0 ++ List.replicate s1 1] = z := by
  simp [countZeros, List.filter_append, List.filter_replicate]

theorem getD_map_range {γ : Type} (m : Nat) (f : Nat → γ) (i : Nat) (d : γ)
    (h : i < m) : ((List.range m).map f).getD i d = f i := by
  rw [List.getD_eq_getElem?_getD]
  simp [List.getElem?_range, h]

/-- The multi-token branch of `create_causal_mask`, written row-wise. -/
theorem create_causal_mask_multitoken (ids am : List Int)
    (h : ids.length ≠ 1) :
    create_causal_mask [ids] [am] =
      [[(List.range ids.length).map (fun i =>
          zeroOutLeft (countZeros [am]) (causalRow ids.length am.length i))]] := by
  simp [create_causal_mask, h]

/-- C3: for a multi-token input whose attention mask has `z` leading zeros
followed by ones, every row of the causal mask is zero in its first `z`
columns, and every later column keeps the un-zeroed concatenated
(past-block + lower-triangular) value; the number of zeroed left-most
columns equals the count of attention-mask zero entries. -/
theorem causal_mask_leading_zero_columns (ids : List Int) (z s1 i j : Nat)
    (hL : 2 ≤ ids.length) (hS : ids.length ≤ z + s1) (hi : i < ids.length) :
    (j < z →
      ((((create_causal_mask [ids]
            [List.replicate z 0 ++ List.replicate s1 1]).getD 0 []).getD 0
          []).getD i []).getD j 1 = 0) ∧
    (z ≤ j → j < z + s1 →
      ((((create_causal_mask [ids]
            [List.replicate z 0 ++ List.replicate s1 1]).getD 0 []).getD 0
          []).getD i []).getD j 0 =
        (causalRow ids.length (z + s1) i).getD j 0) := by
  rw [create_causal_mask_multitoken ids _ (by omega), countZeros_leading]
  have hlen : (List.replicate z (0 : Int) ++ List.replicate s1 1).length =
      z + s1 := by simp
  rw [hlen]
  simp only [List.getD_cons_zero]
  rw [getD_map_range ids.length _ i _ hi]
  constructor
  · intro hj
    exact zeroOutLeft_getD_lt z _ j 1 hj
      (by rw [causalRow_length _ _ _ hS]; omega)
  · intro hz _
    exact zeroOutLeft_getD_ge z _ j 0 hz

/-- Witness for C3 at `ids = [1,2,3]`, `z = 2`, `s1 = 4`, `i = 1`:
column 1 (`< z`) is zeroed, column 3 (`≥ z`) keeps the concatenated value. -/
theorem causal_mask_leading_zero_columns_witness :
    ((((create_causal_mask [[1, 2, 3]]
          [List.replicate 2 0 ++ List.replicate 4 1]).getD 0 []).getD 0
        []).getD 1 []).getD 1 1 = 0 ∧
    ((((create_causal_mask [[1, 2, 3]]
          [List.replicate 2 0 ++ List.replicate 4 1]).getD 0 []).getD 0
        []).getD 1 []).getD 3 0 = (causalRow 3 6 1).getD 3 0 := by
  have h1 := causal_mask_leading_zero_columns [1, 2, 3] 2 4 1 1
    (by decide) (by decide) (by decide)
  have h3 := causal_mask_leading_zero_columns [1, 2, 3] 2 4 1 3
    (by decide) (by decide) (by decide)
  exact ⟨h1.1 (by decide), h3.2 (by decide) (by decide)⟩

/-- C4: when the input has a single new token (`L = 1`), the causal mask is
exactly the attention mask reshaped to `[batch, 1, 1, S]` — no triangular
computation is applied. -/
theorem causal_mask_single_token_is_reshape
    (input_ids attention_mask : List (List Int))
    (h : (input_ids.headD []).length = 1) :
    create_causal_mask input_ids attention_mask =
      attention_mask_reshaped attention_mask := by
  simp [create_causal_mask, attention_mask_reshaped, h]
  intro hc
  exact absurd (by simpa using h) hc

/-- Witness for C4 at `input_ids = [[5]]`, `attention_mask = [[0,1,1]]`. -/
theorem causal_mask_single_token_is_reshape_witness :
    ([[(5 : Int)]].headD []).length = 1 ∧
      create_causal_mask [[(5 : Int)]] [[0, 1, 1]] =
        attention_mask_reshaped [[0, 1, 1]] :=
  ⟨by decide, causal_mask_single_token_is_reshape [[5]] [[0, 1, 1]] (by decide)⟩

/-! ## BatchTransport
(`TextGenerationPipeline.split_engine_inputs`, lines 760-784, and
`TextGenerationPipeline.join_engine_outputs`, lines 786-832).

An item of the engine-input list is either a numeric tensor (a list of
per-item rows of some row type `ρ`, sliced only along the batch axis) or
the out-of-band list of session-id strings; Python distinguishes the two
by `isinstance(item, list)`. -/

inductive InItem (ρ : Type) where
  | arr (a : List ρ)
  | ids (s : List String)
deriving DecidableEq

/-- After splitting, a sub-batch holds tensors plus a single bare
session-id string appended by `batch + [session_ids[i]]`. -/
inductive OutItem (ρ : Type) where
  | arr (a : List ρ)
  | sid (s : String)
deriving DecidableEq

/-- `next((item for item in items if isinstance(item, list)), None)`:
the first session-id list among the items. -/
def extract_session_ids {ρ : Type} (items : List (InItem ρ)) :
    Option (List String) :=
  items.findSome? fun
    | .ids s => some s
    | .arr _ => none

/-- `[item for item in items if not isinstance(item, list)]`:
the numeric tensors among the items. -/
def tensor_items {ρ : Type} (items : List (InItem ρ)) : List (List ρ) :=
  items.filterMap fun
    | .arr a => some a
    | .ids _ => none

/-- Number of sub-batches when a batch of `n` items is split into
sub-batches of size `k` (last sub-batch may be smaller). -/
def numChunks (n k : Nat) : Nat := (n + k - 1) / k

/-- The `i`-th sub-batch slice of a tensor along the batch axis. -/
def chunkSlice {γ : Type} (k i : Nat) (xs : List γ) : List γ :=
  (xs.drop (i * k)).take k

/-- Modelled from the spec: the generic `deepsparse.utils.data.split_engine_inputs`
(imported by the pipeline but not present under `src/`): partition each
tensor along the batch axis into sub-batches of the caller-specified size
(generic batch splitting; nothing is dropped, the last sub-batch may be
smaller), returning the sub-batches plus the original batch size. -/
def split_engine_inputs_data {ρ : Type} (items : List (List ρ)) (k : Nat) :
    List (List (List ρ)) × Nat :=
  let n := (items.headD []).length
  ((List.range (numChunks n k)).map (fun i => items.map (chunkSlice k i)), n)

/-- `TextGenerationPipeline.split_engine_inputs`: pop the session-id list
out of the items, split the tensors generically, then append session id
`i` to sub-batch `i` (`batch + [session_ids[i]]` for
`i, batch in enumerate(batches)`). -/
def split_engine_inputs {ρ : Type} (items : List (InItem ρ)) (k : Nat) :
    List (List (OutItem ρ)) × Nat :=
  let session_ids := (extract_session_ids items).getD []
  let split := split_engine_inputs_data (tensor_items items) k
  ((List.range split.1.length).map (fun i =>
      (split.1.getD i []).map OutItem.arr ++
        [OutItem.sid (session_ids.getD i "")]),
   split.2)

/-- `helpers.pad_to_fixed_length` along axis 1 of a `[batch, seq]`-indexed
array: right-pad every row to `max_len` with `value`. -/
def pad_to_fixed_length {γ : Type} (value : γ) (max_len : Nat)
    (array : List (List γ)) : List (List γ) :=
  array.map (fun row => row ++ List.replicate (max_len - row.length) value)

/-- `TextGenerationPipeline.join_engine_outputs`: unzip the per-sub-batch
`(tokens, logits, session_ids)` triples; with cache support, right-pad
token rows (with the pad token) and logits rows (with zero) to the longest
sequence length seen across sub-batches; concatenate everything along the
batch axis.  Token entries have type `α`, logits entries type `β`
(one `β` per sequence position, holding the vocab axis). -/
def join_engine_outputs {α β : Type} (cache_support_enabled : Bool)
    (pad_token : α) (zero_logit : β)
    (batch_outputs : List (List (List α) × List (List β) × List String)) :
    List (List α) × List (List β) × List String :=
  let tokens := batch_outputs.map (fun o => o.1)
  let logits := batch_outputs.map (fun o => o.2.1)
  let session_ids := batch_outputs.map (fun o => o.2.2)
  if cache_support_enabled then
    let max_len_t := (tokens.map (fun t => (t.headD []).length)).foldl max 0
    let tokens := tokens.map (pad_to_fixed_length pad_token max_len_t)
    let max_len_l := (logits.map (fun l => (l.headD []).length)).foldl max 0
    let logits := logits.map (pad_to_fixed_length zero_logit max_len_l)
    (tokens.flatten, logits.flatten, session_ids.flatten)
  else
    (tokens.flatten, logits.flatten, session_ids.flatten)

/-- Pass a sub-batch through an identity engine: the first tensor comes
back as the tokens, the second as the logits, and the sub-batch's session
id as a one-element id list (as `engine_forward` returns
`numpy.array([session_id])`). -/
def subbatch_to_output {α : Type} (sb : List (OutItem (List α))) :
    List (List α) × List (List α) × List String :=
  let arrs := sb.filterMap fun
    | .arr a => some a
    | .sid _ => none
  let ids := sb.filterMap fun
    | .sid s => some s
    | .arr _ => none
  (arrs.getD 0 [], arrs.getD 1 [], ids)

/-- The split/join round trip on a logical batch of token rows, logits
rows and session ids, with every sub-batch transported unchanged. -/
def roundtrip {α : Type} (pad_token : α) (zero_logit : α)
    (toks lgts : List (List α)) (sids : List String) (k : Nat) :
    List (List α) × List (List α) × List String :=
  join_engine_outputs true pad_token zero_logit
    ((split_engine_inputs [InItem.arr toks, InItem.arr lgts, InItem.ids sids]
        k).1.map subbatch_to_output)

/-! ### Lemmas about chunking, padding and maxima -/

theorem numChunks_one (n : Nat) : numChunks n 1 = n := by
  simp [numChunks]

theorem numChunks_pos (n k : Nat) (hn : 1 ≤ n) (hk : 1 ≤ k) :
    1 ≤ numChunks n k := by
  unfold numChunks
  rw [Nat.le_div_iff_mul_le (by omega)]
  omega

theorem length_eq_zero_of_numChunks_zero (n k : Nat) (hk : 1 ≤ k)
    (h : numChunks n k = 0) : n = 0 := by
  by_contra hn
  have := numChunks_pos n k (by omega) hk
  omega

theorem numChunks_succ (n k m : Nat) (hk : 1 ≤ k)
    (h : numChunks n k = m + 1) : numChunks (n - k) k = m := by
  unfold numChunks at h ⊢
  by_cases hnk : n ≤ k
  · have h0 : (n - k + k - 1) / k = 0 := Nat.div_eq_of_lt (by omega)
    have h2 : (n + k - 1) / k < 2 := by
      rw [Nat.div_lt_iff_lt_mul (by omega)]
      omega
    omega
  · have he : n + k - 1 = (n - 1) + k := by omega
    rw [he, Nat.add_div_right _ (by omega)] at h
    have he2 : n - k + k - 1 = n - 1 := by omega
    rw [he2]
    omega

theorem chunk_mul_lt (n k i : Nat) (hk : 1 ≤ k) (hi : i < numChunks n k) :
    i * k < n := by
  unfold numChunks at hi
  have h1 : (i + 1) * k ≤ ((n + k - 1) / k) * k :=
    Nat.mul_le_mul_right k hi
  have h2 : ((n + k - 1) / k) * k ≤ n + k - 1 := Nat.div_mul_le_self _ _
  have h3 : i * k + k ≤ n + k - 1 := by
    rw [Nat.succ_mul] at h1
    omega
  omega

theorem flatten_chunks {γ : Type} (k : Nat) (hk : 1 ≤ k) (l : List γ) :
    ((List.range (numChunks l.length k)).map
        (fun i => chunkSlice k i l)).flatten = l := by
  generalize hm : numChunks l.length k = m
  induction m generalizing l with
  | zero =>
    have h0 : l.length = 0 := length_eq_zero_of_numChunks_zero _ _ hk hm
    have : l = [] := List.length_eq_zero.mp h0
    subst this
    rfl
  | succ m ih =>
    rw [List.range_succ_eq_map]
    simp only [List.map_cons, List.map_map, List.flatten_cons]
    have h0 : chunkSlice k 0 l = l.take k := by simp [chunkSlice]
    have hcomp : ∀ i ∈ List.range m,
        ((fun i => chunkSlice k i l) ∘ Nat.succ) i = chunkSlice k i (l.drop k) := by
      intro i _
      show chunkSlice k (Nat.succ i) l = _
      have he : Nat.succ i * k = k + i * k := by
        rw [Nat.succ_mul]
        omega
      simp only [chunkSlice, List.drop_drop, he]
    rw [List.map_congr_left hcomp, h0,
      ih (l.drop k) (by rw [List.length_drop]; exact numChunks_succ _ _ _ hk hm)]
    exact List.take_append_drop k l

theorem map_getD_range_self {γ : Type} (l : List γ) (d : γ) :
    (List.range l.length).map (fun i => l.getD i d) = l := by
  induction l with
  | nil => rfl
  | cons x xs ih =>
    rw [List.length_cons, List.range_succ_eq_map, List.map_cons, List.map_map]
    have hcomp : ∀ i ∈ List.range xs.length,
        ((fun i => (x :: xs).getD i d) ∘ Nat.succ) i = xs.getD i d :=
      fun i _ => rfl
    rw [List.map_congr_left hcomp, ih, List.getD_cons_zero]

theorem flatten_map_singleton {γ δ : Type} (g : γ → δ) (l : List γ) :
    (l.map (fun x => [g x])).flatten = l.map g := by
  induction l with
  | nil => rfl
  | cons x xs ih => simp [ih]

theorem foldl_max_const (c : Nat) (l : List Nat) :
    (∀ x ∈ l, x = c) → l ≠ [] → ∀ a, l.foldl max a = max a c := by
  induction l with
  | nil => intro _ h; exact absurd rfl h
  | cons x xs ih =>
    intro h _ a
    have hx : x = c := h x (by simp)
    by_cases hxs : xs = []
    · subst hxs; subst hx; simp
    · have := ih (fun y hy => h y (by simp [hy])) hxs (max a x)
      rw [List.foldl_cons, this, hx, max_assoc, max_self]

theorem pad_to_fixed_length_eq_self {γ : Type} (v : γ) (s : Nat)
    (arr : List (List γ)) (h : ∀ r ∈ arr, r.length = s) :
    pad_to_fixed_length v s arr = arr := by
  induction arr with
  | nil => rfl
  | cons r rs ih =>
    have hr : r.length = s := h r (by simp)
    have ht : pad_to_fixed_length v s rs = rs :=
      ih (fun x hx => h x (by simp [hx]))
    simp only [pad_to_fixed_length, List.map_cons] at ht ⊢
    rw [hr, Nat.sub_self]
    simp [ht]

theorem chunkSlice_subset {γ : Type} (k i : Nat) (l : List γ) :
    ∀ x ∈ chunkSlice k i l, x ∈ l := by
  intro x hx
  exact List.drop_subset _ _ (List.take_subset _ _ hx)

theorem chunk_headD_length {α : Type} (toks : List (List α)) (s k i : Nat)
    (hk : 1 ≤ k) (hi : i < numChunks toks.length k)
    (hrows : ∀ r ∈ toks, r.length = s) :
    ((chunkSlice k i toks).headD []).length = s := by
  have hlt : i * k < toks.length := chunk_mul_lt _ _ _ hk hi
  have hlen : (chunkSlice k i toks).length = min k (toks.length - i * k) := by
    simp [chunkSlice]
  have hne : chunkSlice k i toks ≠ [] := by
    apply List.ne_nil_of_length_pos
    rw [hlen]
    omega
  cases hc : chunkSlice k i toks with
  | nil => exact absurd hc hne
  | cons r rs =>
    have hr : r ∈ toks := chunkSlice_subset k i toks r (by rw [hc]; simp)
    simpa using hrows r hr

/-- `split_engine_inputs` evaluated on a logical batch of token rows,
logits rows and a session-id list: sub-batch `i` holds the `i`-th slice of
each tensor plus the single session id at index `i`. -/
theorem split_engine_inputs_triple {α : Type} (toks lgts : List (List α))
    (sids : List String) (k : Nat) :
    split_engine_inputs [InItem.arr toks, InItem.arr lgts, InItem.ids sids]
        k =
      ((List.range (numChunks toks.length k)).map (fun i =>
        [OutItem.arr (chunkSlice k i toks), OutItem.arr (chunkSlice k i lgts),
          OutItem.sid (sids.getD i "")]),
       toks.length) := by
  simp only [split_engine_inputs, split_engine_inputs_data,
    extract_session_ids, tensor_items, List.findSome?_cons, List.filterMap,
    List.headD_cons, Option.getD_some, List.length_map, List.length_range]
  refine congrArg (fun x => (x, toks.length)) ?_
  apply List.map_congr_left
  intro i hi
  rw [getD_map_range _ _ _ _ (List.mem_range.mp hi)]
  rfl

/-- C1 counterexample: with batch size 2 and split size `k = 2`, the single
sub-batch contains both items but carries only the first session id, so the
joined output does not reproduce the original session-id list. -/
theorem split_join_roundtrip_counterexample :
    (roundtrip (0 : Int) 0 [[1], [2]] [[5], [6]] ["a", "b"] 2).2.2 ≠
      ["a", "b"] := by
  decide

/-- C1 (amended): for every split size `k` in `[1, batch size]`, the
split/join round trip reproduces the tokens and logits in their original
item order and values; the session-id list is reproduced when `k = 1`
(each sub-batch carries the single id at its own sub-batch index, not the
ids of all items it contains). -/
theorem split_join_roundtrip {α : Type} (pt pl : α)
    (toks lgts : List (List α)) (sids : List String) (st sl k : Nat)
    (hn : 1 ≤ toks.length) (hk : 1 ≤ k)
    (hlg : lgts.length = toks.length) (hsid : sids.length = toks.length)
    (ht : ∀ r ∈ toks, r.length = st) (hl : ∀ r ∈ lgts, r.length = sl) :
    (roundtrip pt pl toks lgts sids k).1 = toks ∧
    (roundtrip pt pl toks lgts sids k).2.1 = lgts ∧
    (k = 1 → (roundtrip pt pl toks lgts sids k).2.2 = sids) := by
  unfold roundtrip
  rw [split_engine_inputs_triple, List.map_map]
  have hsub : ∀ i ∈ List.range (numChunks toks.length k),
      (subbatch_to_output ∘ fun i =>
        [OutItem.arr (chunkSlice k i toks), OutItem.arr (chunkSlice k i lgts),
          OutItem.sid (sids.getD i "")]) i =
      (chunkSlice k i toks, chunkSlice k i lgts, [sids.getD i ""]) :=
    fun i _ => rfl
  rw [List.map_congr_left hsub]
  unfold join_engine_outputs
  simp only [List.map_map, if_true, Function.comp_def]
  have hMpos : 1 ≤ numChunks toks.length k := numChunks_pos _ _ hn hk
  have hrne : List.range (numChunks toks.length k) ≠ [] := by
    simp [List.range_eq_nil]
    omega
  -- tokens: max length is st, padding is the identity, chunks re-flatten
  have hmaxt : ((List.range (numChunks toks.length k)).map (fun i =>
      ((chunkSlice k i toks).headD []).length)).foldl max 0 = st := by
    rw [foldl_max_const st _ ?_ (by simpa using hrne) 0]
    · omega
    · intro x hx
      obtain ⟨i, hi, hxi⟩ := List.mem_map.mp hx
      rw [← hxi]
      exact chunk_headD_length toks st k i hk (List.mem_range.mp hi) ht
  have hpadt : ∀ i ∈ List.range (numChunks toks.length k),
      pad_to_fixed_length pt st (chunkSlice k i toks) = chunkSlice k i toks :=
    fun i _ => pad_to_fixed_length_eq_self pt st _
      (fun r hr => ht r (chunkSlice_subset k i toks r hr))
  -- logits: same, with the chunk count expressed over lgts.length
  have hmaxl : ((List.range (numChunks toks.length k)).map (fun i =>
      ((chunkSlice k i lgts).headD []).length)).foldl max 0 = sl := by
    rw [foldl_max_const sl _ ?_ (by simpa using hrne) 0]
    · omega
    · intro x hx
      obtain ⟨i, hi, hxi⟩ := List.mem_map.mp hx
      rw [← hxi]
      exact chunk_headD_length lgts sl k i hk
        (by rw [hlg]; exact List.mem_range.mp hi) hl
  have hpadl : ∀ i ∈ List.range (numChunks toks.length k),
      pad_to_fixed_length pl sl (chunkSlice k i lgts) = chunkSlice k i lgts :=
    fun i _ => pad_to_fixed_length_eq_self pl sl _
      (fun r hr => hl r (chunkSlice_subset k i lgts r hr))
  simp only [List.map_map, Function.comp_def] at hmaxt hmaxl ⊢
  rw [hmaxt, hmaxl, List.map_congr_left hpadt, List.map_congr_left hpadl]
  refine ⟨flatten_chunks k hk toks, ?_, ?_⟩
  · have := flatten_chunks k hk lgts
    rw [hlg] at this
    exact this
  · intro hk1
    subst hk1
    rw [flatten_map_singleton, numChunks_one, ← hsid]
    exact map_getD_range_self sids ""

/-- Witness for C1 (amended) at a concrete two-item batch with `k = 1`. -/
theorem split_join_roundtrip_witness :
    (roundtrip (0 : Int) 0 [[1], [2]] [[5], [6]] ["a", "b"] 1).1 =
        [[1], [2]] ∧
      (roundtrip (0 : Int) 0 [[1], [2]] [[5], [6]] ["a", "b"] 1).2.1 =
        [[5], [6]] ∧
      (roundtrip (0 : Int) 0 [[1], [2]] [[5], [6]] ["a", "b"] 1).2.2 =
        ["a", "b"] := by
  have h := split_join_roundtrip (0 : Int) 0 [[1], [2]] [[5], [6]]
    ["a", "b"] 1 1 1 (by decide) (by decide) (by decide) (by decide)
    (by decide) (by decide)
  exact ⟨h.1, h.2.1, h.2.2 rfl⟩

/-- C10: every sub-batch produced by `split_engine_inputs` ends in exactly
one bare session-id string, namely the id at the sub-batch's own index,
regardless of how many items the sub-batch contains. -/
theorem split_subbatch_session_id {ρ : Type} (items : List (InItem ρ))
    (sids : List String) (k i : Nat)
    (hfound : extract_session_ids items = some sids)
    (hi : i < (split_engine_inputs items k).1.length) :
    ((split_engine_inputs items k).1.getD i []).getLast? =
        some (OutItem.sid (sids.getD i "")) ∧
      ((split_engine_inputs items k).1.getD i []).filterMap (fun x =>
          match x with
          | .sid s => some s
          | .arr _ => none) = [sids.getD i ""] := by
  simp only [split_engine_inputs, hfound, Option.getD_some,
    List.length_map, List.length_range] at hi ⊢
  rw [getD_map_range _ _ _ _ hi]
  constructor
  · exact List.getLast?_concat _
  · rw [List.filterMap_append, List.filterMap_map]
    simp

/-- Witness for C10 at a two-tensor batch split with `k = 2`: the single
sub-batch (holding two items) ends in the id at sub-batch index 0. -/
theorem split_subbatch_session_id_witness :
    ((split_engine_inputs
          [InItem.arr [[1], [2]], InItem.ids ["a", "b"]] 2).1.getD 0
        []).getLast? = some (OutItem.sid ((["a", "b"] : List String).getD 0 ""))
      ∧
      ((split_engine_inputs ([InItem.arr [[1], [2]],
          InItem.ids ["a", "b"]] : List (InItem (List Int))) 2).1.getD 0
        []).filterMap (fun x =>
          match x with
          | .sid s => some s
          | .arr _ => none) = [(["a", "b"] : List String).getD 0 ""] :=
  split_subbatch_session_id [InItem.arr [[1], [2]], InItem.ids ["a", "b"]]
    ["a", "b"] 2 0 (by decide) (by decide)

/-! ## SessionStore and SessionSynchronizer
(`TextGenerationPipeline.synchronize_engines`, lines 733-750; the
per-engine store lives in `NLDecoderEngine`, which is not under `src/`). -/

/-- A kv-cache session: an id, a logical timestamp and the number of valid
(non-blank) cache rows. -/
structure CacheSession where
  id : String
  timestamp : Int
  valid_rows : Nat
deriving DecidableEq

/-- A per-engine session store. -/
abbrev SessionStore := List CacheSession

/-- `kv_cache_storage.get(session_id)`. -/
def storeGet (s : SessionStore) (session_id : String) : Option CacheSession :=
  s.find? (fun e => e.id == session_id)

/-- Modelled from the spec: `transfer_cache_session` of `NLDecoderEngine`
(not under `src/`) — "replaces this store's entry for a session id with a
provided entry when the provided entry's timestamp is not older", an
absent entry comparing as the oldest possible timestamp; "`transfer` with
a stale timestamp is a no-op" and no entry is ever silently dropped.
Returns the updated store and whether a replacing write was performed. -/
def transfer_cache_session (s : SessionStore) (e : CacheSession) :
    SessionStore × Bool :=
  match storeGet s e.id with
  | none => (e :: s, true)
  | some old =>
      if old.timestamp ≤ e.timestamp then
        (s.map (fun x => if x.id == e.id then e else x), true)
      else (s, false)

/-- `TextGenerationPipeline.synchronize_engines`: read both stores'
sessions for the id; if the single-token engine's timestamp is strictly
newer, transfer its session into the multitoken store; then always
transfer the multitoken session into the single-token engine's store.
Returns `(engine store, multitoken store, wrote multitoken, wrote engine)`;
`none` when either store lacks the session (the Python code would fail on
`.timestamp` of `None`). -/
def synchronize_engines (engineStore multitokenStore : SessionStore)
    (session_id : String) :
    Option (SessionStore × SessionStore × Bool × Bool) :=
  match storeGet engineStore session_id,
      storeGet multitokenStore session_id with
  | some engine_session, some multitoken_session =>
      let mt := if multitoken_session.timestamp < engine_session.timestamp
        then transfer_cache_session multitokenStore engine_session
        else (multitokenStore, false)
      let en := transfer_cache_session engineStore multitoken_session
      some (en.1, mt.1, mt.2, en.2)
  | _, _ => none

/-- C2 counterexample: with both stores holding the session `"s"` at equal
timestamp 5, `synchronize_engines` is not write-free — it performs a
replacing transfer into the single-token engine's store (the final `true`
flag), because an equal timestamp is "not older". -/
theorem synchronize_engines_equal_counterexample :
    synchronize_engines [⟨"s", 5, 3⟩] [⟨"s", 5, 3⟩] "s" =
      some ([⟨"s", 5, 3⟩], [⟨"s", 5, 3⟩], false, true) := by
  decide

/-- C2 (amended): when both stores hold entries with equal timestamps for
the session id, `synchronize_engines` performs no write to the multitoken
engine's store, but always performs exactly one replacing transfer of the
multitoken entry into the single-token engine's store (equal timestamps
are "not older", so that transfer replaces). -/
theorem synchronize_engines_equal_timestamp (engineStore multitokenStore :
    SessionStore) (session_id : String) (ea eb : CacheSession)
    (hea : storeGet engineStore session_id = some ea)
    (heb : storeGet multitokenStore session_id = some eb)
    (hts : ea.timestamp = eb.timestamp) :
    synchronize_engines engineStore multitokenStore session_id =
      some ((transfer_cache_session engineStore eb).1, multitokenStore,
        false, true) := by
  have hid : eb.id = session_id := by
    have := List.find?_some heb
    simpa using this
  have hget : storeGet engineStore eb.id = some ea := by rw [hid]; exact hea
  simp only [synchronize_engines, hea, heb]
  rw [if_neg (by omega)]
  simp only [transfer_cache_session, hget]
  rw [if_pos (by omega)]

/-- Witness for C2 (amended) at concrete stores with equal timestamp 7 but
different row counts: the multitoken entry replaces the engine entry. -/
theorem synchronize_engines_equal_timestamp_witness :
    storeGet [⟨"s", 7, 2⟩] "s" = some ⟨"s", 7, 2⟩ ∧
      storeGet [⟨"s", 7, 4⟩] "s" = some ⟨"s", 7, 4⟩ ∧
      synchronize_engines [⟨"s", 7, 2⟩] [⟨"s", 7, 4⟩] "s" =
        some ((transfer_cache_session [⟨"s", 7, 2⟩] ⟨"s", 7, 4⟩).1,
          [⟨"s", 7, 4⟩], false, true) :=
  ⟨by decide, by decide,
    synchronize_engines_equal_timestamp [⟨"s", 7, 2⟩] [⟨"s", 7, 4⟩] "s"
      ⟨"s", 7, 2⟩ ⟨"s", 7, 4⟩ (by decide) (by decide) rfl⟩

/-! ## PrefillPlanner and the prompt phase
(`engine_inputs_for_prefill`, lines 630-731, and `prompt_inference`,
lines 517-582).  The engines are abstracted as pure oracles mapping the
token context given to them to a `(new token, logits)` pair; the stores'
`has_session` answers at their two call sites are booleans. -/

/-- The chunking step of `engine_inputs_for_prefill` (lines 666-675): the
prompt is cut into `len(tokens) // ppsl` full chunks of size `ppsl`; any
remainder is not emitted. -/
def token_batches (ppsl : Nat) (tokens : List Int) : List (List Int) :=
  (List.range (tokens.length / ppsl)).map
    (fun i => (tokens.drop (i * ppsl)).take ppsl)

/-- `_remove_bos_token_if_applicable` (lines 849-852): drop the leading
token exactly when the tokenizer has the `add_bos_token` attribute. -/
def remove_bos_token_if_applicable (has_add_bos_attr : Bool)
    (tokens : List Int) : List Int :=
  if has_add_bos_attr then tokens.drop 1 else tokens

/-- The multitoken prefill loop (lines 551-556): one engine call per
chunk, tracking the latest new token and accumulating the chunk logits. -/
def chunkLoop {β : Type} (mstep : List Int → Int × β) :
    List (List Int) → Option Int → List β → Option Int × List β
  | [], new_token, acc => (new_token, acc)
  | b :: rest, _, acc =>
      let r := mstep b
      chunkLoop mstep rest (some r.1) (acc ++ [r.2])

/-- The single-token fallback loop (lines 569-578): append the next prompt
token to the running context, run one autoregressive inference on it, and
accumulate that step's logits. -/
def singleLoop {β : Type} (sstep : List Int → Int × β) :
    List Int → List Int → Option Int → List β → Option Int × List β
  | _, [], new_token, acc => (new_token, acc)
  | run_tokens, t :: rest, _, acc =>
      let run2 := run_tokens ++ [t]
      let r := sstep run2
      singleLoop sstep run2 rest (some r.1) (acc ++ [r.2])

/-- `TextGenerationPipeline.prompt_inference` (lines 517-582).  Returns
the prompt tokens (after any BOS stripping) with exactly one new generated
token appended, plus the accumulated prompt logits; `none` models the
degenerate case where no engine call happened and the Python code would
append `None`. -/
def prompt_inference {β : Type} (ppsl : Nat)
    (enable_multitoken_prefill mt_has_session engine_has_session
      has_add_bos_attr : Bool)
    (mstep sstep : List Int → Int × β) (tokens : List Int) :
    Option (List Int × List β) :=
  let useMT := decide (ppsl < tokens.length) && enable_multitoken_prefill
  let tokens1 := if useMT && mt_has_session then
      remove_bos_token_if_applicable has_add_bos_attr tokens
    else tokens
  let chunks := if useMT then token_batches ppsl tokens1 else []
  let r1 := chunkLoop mstep chunks none []
  let num_tokens_processed := ppsl * chunks.length
  let run_tokens : List Int := if num_tokens_processed == 0 then []
      else tokens1.take num_tokens_processed
  let tokens2 := if engine_has_session && num_tokens_processed == 0 then
      remove_bos_token_if_applicable has_add_bos_attr tokens1
    else tokens1
  let r2 := singleLoop sstep run_tokens (tokens2.drop num_tokens_processed)
      r1.1 r1.2
  r2.1.map (fun nt => (tokens2 ++ [nt], r2.2))

/-- C5: on a fresh session, a 3-token prompt with
`prompt_processing_sequence_length = 4` produces zero prefill chunks, all
three tokens run one at a time through the single-token fallback (the
three logits entries are the three single-step results in order), and
`prompt_inference` returns the 3 prompt tokens plus exactly one newly
generated token. -/
theorem prompt_inference_short_prompt {β : Type} (t1 t2 t3 : Int)
    (enable_mt mt_has bos : Bool) (mstep sstep : List Int → Int × β) :
    token_batches 4 [t1, t2, t3] = [] ∧
      prompt_inference 4 enable_mt mt_has false bos mstep sstep
          [t1, t2, t3] =
        some ([t1, t2, t3, (sstep [t1, t2, t3]).1],
          [(sstep [t1]).2, (sstep [t1, t2]).2, (sstep [t1, t2, t3]).2]) := by
  constructor
  · simp [token_batches]
  · simp [prompt_inference, singleLoop, chunkLoop, token_batches]

theorem strip_if_eq (b h : Bool) (tokens : List Int) :
    (if h = true then remove_bos_token_if_applicable b tokens else tokens) =
      if (b && h) = true then tokens.drop 1 else tokens := by
  cases h <;> cases b <;> simp [remove_bos_token_if_applicable]

theorem length_remove_bos_ge (b : Bool) (tokens : List Int) :
    tokens.length - 1 ≤ (remove_bos_token_if_applicable b tokens).length := by
  cases b <;> simp [remove_bos_token_if_applicable]

/-- C9: the returned token list of `prompt_inference` (minus the one newly
generated token) is the prompt with its leading token stripped exactly
when the tokenizer config has the `add_bos_token` attribute and the
relevant engine's store already has a session: the multitoken engine's
store when the multitoken prefill path is taken, the single-token
engine's store otherwise; in all other cases the prompt passes through
unchanged. -/
theorem prompt_inference_bos_strip {β : Type} (ppsl : Nat)
    (enable_mt mt_has eng_has bos : Bool)
    (mstep sstep : List Int → Int × β) (tokens toks' : List Int)
    (lgs' : List β) (hp : 1 ≤ ppsl)
    (hres : prompt_inference ppsl enable_mt mt_has eng_has bos mstep sstep
        tokens = some (toks', lgs')) :
    toks'.dropLast =
      if bos && ((decide (ppsl < tokens.length) && enable_mt && mt_has) ||
          (!(decide (ppsl < tokens.length) && enable_mt) && eng_has)) then
        tokens.drop 1
      else tokens := by
  simp only [prompt_inference] at hres
  by_cases hu : (decide (ppsl < tokens.length) && enable_mt) = true
  · have hlt : ppsl < tokens.length := by
      have h2 := hu
      simp only [Bool.and_eq_true, decide_eq_true_eq] at h2
      exact h2.1
    rw [hu] at hres ⊢
    simp only [Bool.true_and, Bool.not_true, Bool.false_and, Bool.or_false,
      if_true] at hres ⊢
    have hT1 : ppsl ≤ (if mt_has = true then
        remove_bos_token_if_applicable bos tokens else tokens).length := by
      by_cases hm : mt_has = true
      · rw [if_pos hm]
        have := length_remove_bos_ge bos tokens
        omega
      · rw [if_neg hm]
        omega
    have hchunks : 1 ≤ (token_batches ppsl (if mt_has = true then
        remove_bos_token_if_applicable bos tokens else tokens)).length := by
      simp only [token_batches, List.length_map, List.length_range]
      rw [Nat.le_div_iff_mul_le (by omega)]
      omega
    have hnum : (ppsl * (token_batches ppsl (if mt_has = true then
        remove_bos_token_if_applicable bos tokens else tokens)).length ==
          0) = false := by
      rw [beq_eq_false_iff_ne]
      exact Nat.mul_ne_zero (by omega) (by omega)
    rw [hnum] at hres
    simp only [Bool.and_false, if_false] at hres
    obtain ⟨nt, hnt, hout⟩ := Option.map_eq_some'.mp hres
    have hfst := congrArg Prod.fst hout
    simp only at hfst
    rw [← hfst, List.dropLast_concat]
    exact strip_if_eq bos mt_has tokens
  · have hu' : (decide (ppsl < tokens.length) && enable_mt) = false :=
      eq_false_of_ne_true hu
    rw [hu'] at hres ⊢
    simp only [Bool.false_and, Bool.false_eq_true, if_false, Bool.not_false,
      Bool.true_and, Bool.false_or, chunkLoop, List.length_nil,
      Nat.mul_zero, beq_self_eq_true, eq_self_iff_true, if_true,
      Bool.and_true, List.drop_zero] at hres ⊢
    obtain ⟨nt, hnt, hout⟩ := Option.map_eq_some'.mp hres
    have hfst := congrArg Prod.fst hout
    simp only at hfst
    rw [← hfst, List.dropLast_concat]
    exact strip_if_eq bos eng_has tokens

/-- Witness for C9: a fresh 3-token prompt with chunk size 4 and an
`add_bos_token` attribute present but no existing session: nothing is
stripped. -/
theorem prompt_inference_bos_strip_witness :
    (1 ≤ 4) ∧
      prompt_inference 4 false false false true
          (fun _ => ((0 : Int), (0 : Int))) (fun l => (l.length, l.length))
          [9, 1, 2] = some ([9, 1, 2, 3], [1, 2, 3]) ∧
      ([(9 : Int), 1, 2, 3].dropLast =
        if true && ((decide (4 < ([9, 1, 2] : List Int).length) && false &&
            false) ||
          (!(decide (4 < ([9, 1, 2] : List Int).length) && false) && false))
        then ([(9 : Int), 1, 2] : List Int).drop 1
        else [9, 1, 2]) :=
  ⟨by decide, by decide,
    prompt_inference_bos_strip 4 false false false true
      (fun _ => ((0 : Int), (0 : Int))) (fun l => (l.length, l.length))
      [9, 1, 2] [9, 1, 2, 3] [1, 2, 3] (by decide) (by decide)⟩

/-! ## AutoregressiveDecoder: the GENERATE phase of `engine_forward`
(lines 415-515), with the single-token engine as a pure oracle. -/

/-- The GENERATE while-loop of `engine_forward` (lines 486-503).  `fuel`
is the number of loop iterations still allowed by the condition
`len(generated_tokens) <= max_tokens` (it decreases by one as the
generated count grows by one).  Each iteration runs one inference on the
current context, appends the new token to the context and the
accumulators, and breaks early when the token is the end-of-sequence
token and `force_max_tokens` is not set.  The final component records the
input context of every engine call made by the loop. -/
def generateLoop {β : Type} (step : List Int → Int × β) (eos : Int)
    (force_max_tokens : Bool) :
    Nat → List Int → List Int → List β → List (List Int) →
      List Int × List Int × List β × List (List Int)
  | 0, tokens, gen, glog, calls => (tokens, gen, glog, calls)
  | fuel + 1, tokens, gen, glog, calls =>
      let r := step tokens
      let tokens2 := tokens ++ [r.1]
      let gen2 := gen ++ [r.1]
      let glog2 := glog ++ [r.2]
      let calls2 := calls ++ [tokens]
      if r.1 == eos && !force_max_tokens then (tokens2, gen2, glog2, calls2)
      else generateLoop step eos force_max_tokens fuel tokens2 gen2 glog2
        calls2

/-- The max-token policy of `engine_forward` (lines 475-479):
`max_generated_tokens` when set and positive, otherwise the
`100 * sequence_length` safety ceiling. -/
def max_tokens_policy (max_generated_tokens : Option Int)
    (sequence_length : Nat) : Nat :=
  match max_generated_tokens with
  | some m => if 0 < m then m.toNat else 100 * sequence_length
  | none => 100 * sequence_length

/-- The cache-enabled generation phase of `engine_forward` (lines
474-515): seed the accumulator with the prefill's last token, loop while
`len(generated_tokens) <= max_tokens`, then run one extra inference (its
token and logits discarded) to populate the cache with the final token.
Returns `(generated tokens, generated logits, loop call trace, input of
the extra cache-population call)`. -/
def engine_generate {β : Type} (step : List Int → Int × β) (eos : Int)
    (force_max_tokens : Bool) (max_generated_tokens : Option Int)
    (sequence_length : Nat) (include_prompt_logits : Bool)
    (tokens : List Int) (prompt_logits : List β) :
    List Int × List β × List (List Int) × List Int :=
  let max_tokens := max_tokens_policy max_generated_tokens sequence_length
  let generated_tokens := [tokens.getLastD 0]
  let generated_logits := if include_prompt_logits then prompt_logits
    else []
  let fuel := max_tokens + 1 - generated_tokens.length
  let r := generateLoop step eos force_max_tokens fuel tokens
      generated_tokens generated_logits []
  (r.2.1, r.2.2.1, r.2.2.2, r.1)

/-- C6: with `force_max_tokens = false` and `max_generated_tokens = 10`,
if the engine produces a non-eos token at step 1 and the eos token at step
2, the loop stops after step 2 having generated exactly the two tokens
`t1, eos` (after the prefill seed), accumulates exactly the two steps'
logits, makes exactly the two loop calls, and exactly one extra
cache-population inference runs on the final context with its token and
logits absent from the outputs. -/
theorem engine_generate_eos_stop {β : Type} (step : List Int → Int × β)
    (eos t1 : Int) (lg1 lg2 : β) (seq : Nat) (pt : List Int)
    (plgs : List β) (inc : Bool)
    (h1 : step pt = (t1, lg1)) (hne : t1 ≠ eos)
    (h2 : step (pt ++ [t1]) = (eos, lg2)) :
    engine_generate step eos false (some 10) seq inc pt plgs =
      ([pt.getLastD 0, t1, eos],
        (if inc then plgs else []) ++ [lg1, lg2],
        [pt, pt ++ [t1]],
        pt ++ [t1, eos]) := by
  have hfuel : max_tokens_policy (some 10) seq + 1 - 1 = 9 + 1 := by
    simp [max_tokens_policy]
  simp only [engine_generate, List.length_cons, List.length_nil, hfuel]
  rw [generateLoop]
  simp only [h1, beq_eq_false_iff_ne.mpr hne, Bool.false_and, if_false,
    Bool.not_false]
  rw [generateLoop]
  simp only [h2, beq_self_eq_true, Bool.true_and, Bool.not_false, if_true]
  simp

/-- Witness for C6 with `step l = (|l|, |l|)`, `eos = 2`, prompt `[5]`:
step 1 yields token 1, step 2 yields the eos token 2. -/
theorem engine_generate_eos_stop_witness :
    ((fun l => ((l.length : Int), (l.length : Int))) [(5 : Int)] =
        ((1 : Int), (1 : Int))) ∧
      ((1 : Int) ≠ 2) ∧
      ((fun l => ((l.length : Int), (l.length : Int)))
          ([(5 : Int)] ++ [1]) = ((2 : Int), (2 : Int))) ∧
      engine_generate (fun l => ((l.length : Int), (l.length : Int)))
          2 false (some 10) 8 false [5] [] =
        ([5, 1, 2], [1, 2], [[5], [5, 1]], [5, 1, 2]) := by
  refine ⟨by decide, by decide, by decide, ?_⟩
  have h := engine_generate_eos_stop
    (fun l => ((l.length : Int), (l.length : Int))) 2 1 1 2 8 [5] []
    false (by decide) (by decide) (by decide)
  simpa using h

/-- Upper bound on the number of engine calls the GENERATE loop makes:
at most `fuel` calls are appended to the trace. -/
theorem generateLoop_calls_le {β : Type} (step : List Int → Int × β)
    (eos : Int) (force : Bool) :
    ∀ (fuel : Nat) (tokens gen : List Int) (glog : List β)
      (calls : List (List Int)),
      (generateLoop step eos force fuel tokens gen glog
          calls).2.2.2.length ≤ calls.length + fuel := by
  intro fuel
  induction fuel with
  | zero => intro tokens gen glog calls; simp [generateLoop]
  | succ fuel ih =>
    intro tokens gen glog calls
    rw [generateLoop]
    by_cases hb : ((step tokens).1 == eos && !force) = true
    · rw [if_pos hb]
      simp
    · rw [if_neg hb]
      have := ih (tokens ++ [(step tokens).1]) (gen ++ [(step tokens).1])
        (glog ++ [(step tokens).2]) (calls ++ [tokens])
      simp at this
      omega

/-- C7: the GENERATE loop of `engine_forward` performs at most
`max_generated_tokens` iterations (with `100 * sequence_length` as the
bound when `max_generated_tokens` is unset or nonpositive), so generation
always terminates: the loop call trace is never longer than the policy
bound. -/
theorem engine_generate_bounded {β : Type} (step : List Int → Int × β)
    (eos : Int) (force : Bool) (max_generated_tokens : Option Int)
    (sequence_length : Nat) (include_prompt_logits : Bool)
    (tokens : List Int) (prompt_logits : List β) :
    (engine_generate step eos force max_generated_tokens sequence_length
        include_prompt_logits tokens prompt_logits).2.2.1.length ≤
      max_tokens_policy max_generated_tokens sequence_length := by
  simp only [engine_generate]
  have h := generateLoop_calls_le step eos force
    (max_tokens_policy max_generated_tokens sequence_length + 1 - 1)
    tokens [tokens.getLastD 0]
    (if include_prompt_logits then prompt_logits else []) []
  simp at h ⊢
  omega

/-! ## Engine initialization
(`TextGenerationPipeline.initialize_engines`, lines 208-297). -/

/-- The construction-time configuration consumed by
`initialize_engines`. -/
structure PipelineConfig where
  cache_support_enabled : Bool
  enable_multitoken_prefill : Bool
  engine_is_deepsparse : Bool
  sequence_length : Nat
  prompt_processing_sequence_length : Nat
deriving DecidableEq

/-- `TextGenerationPipeline.initialize_engines`: raise a `ValueError`
(modelled as `Except.error`, before any engine is constructed) when the
model supports a cache, the engine type is the deepsparse engine,
`sequence_length <= prompt_processing_sequence_length` and multitoken
prefill is enabled; otherwise build the engines and return which of
`(engine, multitoken_engine)` were constructed. -/
def initialize_engines (cfg : PipelineConfig) :
    Except String (Bool × Bool) :=
  if cfg.cache_support_enabled && cfg.engine_is_deepsparse &&
      decide (cfg.sequence_length ≤ cfg.prompt_processing_sequence_length)
      && cfg.enable_multitoken_prefill then
    Except.error
      "prompt_processing_sequence_length must be smaller than sequence_length"
  else
    Except.ok (cfg.cache_support_enabled,
      (cfg.cache_support_enabled && cfg.enable_multitoken_prefill) ||
        !cfg.cache_support_enabled)

/-- C8 counterexample: with a cache-enabled model, multitoken prefill
enabled and chunk size equal to the fixed sequence length, but a
non-deepsparse engine type, construction succeeds — no configuration
error is raised. -/
theorem initialize_engines_counterexample :
    initialize_engines ⟨true, true, false, 4, 4⟩ =
      Except.ok (true, true) :=
  rfl

/-- C8 (amended): when the model supports a cache, multitoken prefill is
enabled, the engine type is the deepsparse engine and the prompt chunk
size is at least the fixed sequence length, `initialize_engines` raises
the configuration error before any engine is constructed; for
non-deepsparse engine types the configuration is not rejected. -/
theorem initialize_engines_chunk_size_error (cfg : PipelineConfig)
    (hc : cfg.cache_support_enabled = true)
    (hm : cfg.enable_multitoken_prefill = true)
    (hd : cfg.engine_is_deepsparse = true)
    (hs : cfg.sequence_length ≤ cfg.prompt_processing_sequence_length) :
    initialize_engines cfg =
      Except.error
        "prompt_processing_sequence_length must be smaller than sequence_length"
    := by
  simp [initialize_engines, hc, hm, hd, hs]

/-- Witness for C8 (amended) at the deepsparse-engine configuration with
`sequence_length = prompt_processing_sequence_length = 4`. -/
theorem initialize_engines_chunk_size_error_witness :
    ((⟨true, true, true, 4, 4⟩ : PipelineConfig).cache_support_enabled =
        true) ∧
      ((4 : Nat) ≤ 4) ∧
      initialize_engines ⟨true, true, true, 4, 4⟩ =
        Except.error
          "prompt_processing_sequence_length must be smaller than sequence_length"
    :=
  ⟨rfl, by decide,
    initialize_engines_chunk_size_error ⟨true, true, true, 4, 4⟩ rfl rfl rfl
      (by decide)⟩

end DeepSparse
